import Mathlib

/-!
Verification of the PSO point-cloud-registration driver
(`src/src/pso_parameters.cc`) and of the spec-described swarm/particle
core against the repository's specification.

The driver `main` is embedded as a deterministic function from its
run-time inputs (command-line values, load outcomes, and the swarm's
reported best transforms) to the trace of external actions it performs
and its final outcome.  Transforms are kept abstract (a type parameter
`T`); point clouds are symbolic terms recording how each cloud was
obtained.  The swarm/particle classes are not part of the sources, so
the swarm bookkeeping and the robust cost are modelled from the spec
where a claim needs them.
-/

/-- Configuration record filled by `main` from the command line
(lines 79-84 of `src/src/pso_parameters.cc`). -/
structure PointCloudRegistrationParams where
  dof : ℚ
  n_iter : ℤ
  verbose : Bool
  cost_drop_thresh : ℚ
  n_cost_drop_it : ℤ
  summary : Bool
deriving DecidableEq

/-- Symbolic point clouds: the three loaded clouds, voxel-filtered
clouds (with the leaf size used), and transformed clouds. -/
inductive Cloud (T : Type) where
  | src : Cloud T
  | tgt : Cloud T
  | groundTruth : Cloud T
  | filtered : Cloud T → ℚ → Cloud T
  | transformed : Cloud T → T → Cloud T
deriving DecidableEq

/-- External actions performed by `main`, in program order. -/
inductive Event (T : Type) where
  | loadSource (ok : Bool)
  | loadTarget (ok : Bool)
  | loadGroundTruth (ok : Bool)
  | filterSource
  | filterTarget
  | filterGroundTruth
  | addParticle (i : ℕ) (source target : Cloud T) (params : PointCloudRegistrationParams)
  | init
  | evolve
  | getBest
  | vizUpdate (t : T)
  | saveCloud (c : Cloud T)
  | exitFailure
deriving DecidableEq

/-- Final outcome of a driver run: abort via `exit(EXIT_FAILURE)`, or
completion with the cloud saved to `output.pcd`. -/
inductive Outcome (T : Type) where
  | failed
  | completed (saved : Cloud T)
deriving DecidableEq

/-- A driver run: the trace of external actions and the outcome. -/
structure RunResult (T : Type) where
  trace : List (Event T)
  outcome : Outcome T

/-- Inputs of one driver run: parsed command-line values, the success
of each file load, and the behaviour of the (out-of-source) swarm,
abstracted as the transform reported by `getBest()` after each
generation (`best`), the transform of a default-constructed
`ParticleParameters` (`defaultTransform`, line 160), and the
global-best transform the swarm holds after `init()` (`initBest`,
modelled from the spec since the swarm sources are not present). -/
structure Inputs (T : Type) where
  num_part : ℤ
  num_gen : ℤ
  source_filter_size : ℚ
  target_filter_size : ℚ
  ground_truth_given : Bool
  source_ok : Bool
  target_ok : Bool
  ground_truth_ok : Bool
  params : PointCloudRegistrationParams
  best : ℕ → T
  defaultTransform : T
  initBest : T

variable {T : Type}

/-- The source cloud after the optional voxel filter
(lines 111-115: filtered exactly when the leaf size is nonzero). -/
def procSource (inp : Inputs T) : Cloud T :=
  if inp.source_filter_size ≠ 0 then
    Cloud.filtered Cloud.src inp.source_filter_size
  else Cloud.src

/-- The target cloud after the optional voxel filter (lines 117-121). -/
def procTarget (inp : Inputs T) : Cloud T :=
  if inp.target_filter_size ≠ 0 then
    Cloud.filtered Cloud.tgt inp.target_filter_size
  else Cloud.tgt

/-- Filter actions of the success path (lines 111-121). -/
def filterTrace (inp : Inputs T) : List (Event T) :=
  (if inp.source_filter_size ≠ 0 then [Event.filterSource] else []) ++
  (if inp.target_filter_size ≠ 0 then [Event.filterTarget] else [])

/-- Ground-truth block (lines 126-139): only entered when `-g` was
given; a failed load merely clears the `ground_truth` flag, a
successful load is followed by the optional voxel filter. -/
def gtTrace (inp : Inputs T) : List (Event T) :=
  if inp.ground_truth_given then
    if inp.ground_truth_ok then
      [Event.loadGroundTruth true] ++
        (if inp.source_filter_size ≠ 0 then [Event.filterGroundTruth] else [])
    else [Event.loadGroundTruth false]
  else []

/-- Particle-adding loop (lines 157-159): `num_part` iterations of
`swarm.add_particle(ParticleParameters(source_cloud, target_cloud, params, i))`. -/
def addTrace (inp : Inputs T) : List (Event T) :=
  (List.range inp.num_part.toNat).map
    (fun i => Event.addParticle i (procSource inp) (procTarget inp) inp.params)

/-- One iteration of the generation loop (lines 164-170): `evolve()`,
then `getBest()`, then one pose update of the visualization. -/
def genBlock (inp : Inputs T) (i : ℕ) : List (Event T) :=
  [Event.evolve, Event.getBest, Event.vizUpdate (inp.best i)]

/-- The whole generation loop: `num_gen` iterations. -/
def genTrace (inp : Inputs T) : List (Event T) :=
  ((List.range inp.num_gen.toNat).map (genBlock inp)).flatten

/-- Final value of the `best` variable at line 171: default-constructed
at line 160, overwritten by `getBest()` each loop iteration. -/
def finalBest (inp : Inputs T) : T :=
  (List.range inp.num_gen.toNat).foldl (fun _ i => inp.best i) inp.defaultTransform

/-- The cloud saved to `output.pcd` (lines 171-172): the (possibly
filtered) source cloud transformed in place by `best.getTransformation()`. -/
def savedCloudOf (inp : Inputs T) : Cloud T :=
  Cloud.transformed (procSource inp) (finalBest inp)

/-- The driver `main` (lines 96-173), from the point where the
command line has been parsed: load the source and target clouds
(aborting on failure), filter them, optionally load and filter the
ground truth (not aborting on failure), add the particles, `init()`,
run the generation loop, and save the transformed source cloud. -/
def driver (inp : Inputs T) : RunResult T :=
  if inp.source_ok = false then
    ⟨[Event.loadSource false, Event.exitFailure], Outcome.failed⟩
  else if inp.target_ok = false then
    ⟨[Event.loadSource true, Event.loadTarget false, Event.exitFailure], Outcome.failed⟩
  else
    ⟨[Event.loadSource true, Event.loadTarget true] ++ filterTrace inp ++ gtTrace inp
      ++ addTrace inp ++ [Event.init] ++ genTrace inp
      ++ [Event.saveCloud (savedCloudOf inp)],
     Outcome.completed (savedCloudOf inp)⟩

/-- Trace of a driver run. -/
def driverTrace (inp : Inputs T) : List (Event T) :=
  (driver inp).trace

/-- Number of `init()` calls in a trace. -/
def countInit (tr : List (Event T)) : ℕ :=
  tr.countP fun e => match e with | Event.init => true | _ => false

/-- Number of `evolve()` calls in a trace. -/
def countEvolve (tr : List (Event T)) : ℕ :=
  tr.countP fun e => match e with | Event.evolve => true | _ => false

/-- Number of `getBest()` calls in a trace. -/
def countGetBest (tr : List (Event T)) : ℕ :=
  tr.countP fun e => match e with | Event.getBest => true | _ => false

/-- Number of transform deliveries to the visualization in a trace. -/
def countViz (tr : List (Event T)) : ℕ :=
  tr.countP fun e => match e with | Event.vizUpdate _ => true | _ => false

/-- Number of `add_particle` calls in a trace. -/
def countAdd (tr : List (Event T)) : ℕ :=
  tr.countP fun e => match e with | Event.addParticle _ _ _ _ => true | _ => false

/-- Number of ground-truth voxel-filter applications in a trace. -/
def countFilterGT (tr : List (Event T)) : ℕ :=
  tr.countP fun e => match e with | Event.filterGroundTruth => true | _ => false

/-! ### Spec-modelled swarm bookkeeping

The `SwarmParameters` / `ParticleParameters` classes are not among the
sources, so the personal-best / global-best bookkeeping is modelled
from the spec (costs as rationals, one cost per particle per
generation supplied externally). -/

/-- Modelled from the spec: minimum cost across a (nonempty)
population, paired with deterministic lowest-id tie-breaking by taking
the first minimum in insertion order.  On an empty population the
value is an arbitrary default (the spec never evaluates it). -/
def minCost : List ℚ → ℚ
  | [] => 0
  | x :: xs => xs.foldl min x

/-- Modelled from the spec: a particle replaces its personal best only
when the newly evaluated cost improves on it. -/
def pbestUpdate (pbest c : ℚ) : ℚ :=
  if c < pbest then c else pbest

/-- Modelled from the spec: swarm state — the particles' personal-best
costs in insertion order and the global-best cost. -/
structure SwarmState where
  pbests : List ℚ
  gbest : ℚ
deriving DecidableEq

/-- Modelled from the spec: `init()` evaluates every particle once,
sets each personal best to that cost, and sets the global best to the
population minimum. -/
def swarmInit (costs : List ℚ) : SwarmState :=
  ⟨costs, minCost costs⟩

/-- Modelled from the spec: one `evolve()` generation — every particle
re-evaluates (the fresh costs are given), updates its personal best if
improved, and then the global best is recomputed as the minimum
personal best. -/
def evolveStep (s : SwarmState) (newCosts : List ℚ) : SwarmState :=
  let pb := List.zipWith pbestUpdate s.pbests newCosts
  ⟨pb, minCost pb⟩

/-- Run a sequence of generations from a given swarm state. -/
def runFrom (s : SwarmState) (gens : List (List ℚ)) : SwarmState :=
  gens.foldl evolveStep s

/-- Modelled from the spec: `init()` followed by one `evolve()` per
element of `gens` (the per-generation fresh evaluation costs). -/
def runSwarm (initCosts : List ℚ) (gens : List (List ℚ)) : SwarmState :=
  runFrom (swarmInit initCosts) gens

/-- Personal best after the first `n` of a particle's per-generation
evaluated costs (generation 0 = the `init()` evaluation `p0`). -/
def pbestAfter (p0 : ℚ) (cs : List ℚ) (n : ℕ) : ℚ :=
  (cs.take n).foldl pbestUpdate p0

/-! ### Spec-modelled robust cost -/

/-- Modelled from the spec: the Student's-t robust weight
`w = (dof + 1) / (dof + normalized_squared_residual)` of one
correspondence (the particle cost code is not among the sources). -/
def robust_weight (dof nsq : ℚ) : ℚ :=
  (dof + 1) / (dof + nsq)

/-- One correspondence: its squared residual and its normalized
squared residual, as used by the robust weight. -/
structure Correspondence where
  sq : ℚ
  nsq : ℚ
deriving DecidableEq

/-- Modelled from the spec: the robust cost — each correspondence's
squared residual scaled by its Student's-t weight. -/
def robustCost (dof : ℚ) (cs : List Correspondence) : ℚ :=
  (cs.map (fun c => robust_weight dof c.nsq * c.sq)).sum

/-- The plain least-squares cost: the unweighted sum of squared
residuals. -/
def lsCost (cs : List Correspondence) : ℚ :=
  (cs.map (fun c => c.sq)).sum

/-- Convergence of a rational-valued function as its argument tends to
infinity. -/
def TendstoInfty (f : ℚ → ℚ) (L : ℚ) : Prop :=
  ∀ ε : ℚ, 0 < ε → ∃ D : ℚ, ∀ d : ℚ, D ≤ d → |f d - L| < ε

/-! ### Concrete sample runs (used to instantiate the theorems) -/

/-- A sample configuration (the command-line defaults of `main`). -/
def sampleParams : PointCloudRegistrationParams :=
  ⟨5, 10, false, 1/100, 5, false⟩

/-- A configuration with an invalid robust-kernel shape parameter. -/
def invalidParams : PointCloudRegistrationParams :=
  ⟨-1, 10, false, 1/100, 5, false⟩

/-- Sample run: 3 particles, 2 generations, no filtering, no ground truth. -/
def inputC2 : Inputs ℕ :=
  ⟨3, 2, 0, 0, false, true, true, true, sampleParams, fun i => i + 10, 0, 7⟩

/-- Sample run with 0 generations whose swarm would report best transform 1. -/
def inputC3cex : Inputs ℕ :=
  ⟨1, 0, 0, 0, false, true, true, true, sampleParams, fun _ => 1, 0, 1⟩

/-- Sample run with 2 generations. -/
def inputC3w : Inputs ℕ :=
  ⟨1, 2, 0, 0, false, true, true, true, sampleParams, fun i => i + 3, 0, 1⟩

/-- Sample run where the ground-truth cloud fails to load. -/
def inputC4cex : Inputs ℕ :=
  ⟨2, 1, 0, 0, true, true, true, false, sampleParams, fun _ => 1, 0, 1⟩

/-- Sample run where the source cloud fails to load. -/
def inputC4w : Inputs ℕ :=
  ⟨5, 3, 0, 0, false, false, true, true, sampleParams, fun _ => 1, 0, 1⟩

/-- Sample run with leaf size 0 for the source and 2 for the target. -/
def inputC6w : Inputs ℕ :=
  ⟨2, 1, 0, 2, false, true, true, true, sampleParams, fun _ => 1, 0, 1⟩

/-- Sample run with zero particles and `dof = -1`. -/
def inputC7cex : Inputs ℕ :=
  ⟨0, 1, 0, 0, false, true, true, true, invalidParams, fun _ => 1, 0, 1⟩

/-- Sample run with a failing ground-truth load and a nonzero source
filter size. -/
def inputC9w : Inputs ℕ :=
  ⟨2, 2, 3, 0, true, true, true, false, sampleParams, fun _ => 1, 0, 1⟩

/-- Sample run with 0 generations, default transform 0 and post-`init()`
global-best transform 1. -/
def inputC10w : Inputs ℕ :=
  ⟨2, 0, 0, 0, false, true, true, true, sampleParams, fun _ => 5, 0, 1⟩

/-! ### Helper lemmas about the driver trace -/

lemma driver_success (inp : Inputs T) (h1 : inp.source_ok = true)
    (h2 : inp.target_ok = true) :
    driver inp =
      ⟨[Event.loadSource true, Event.loadTarget true] ++ filterTrace inp ++ gtTrace inp
        ++ addTrace inp ++ [Event.init] ++ genTrace inp
        ++ [Event.saveCloud (savedCloudOf inp)],
       Outcome.completed (savedCloudOf inp)⟩ := by
  simp [driver, h1, h2]

lemma countP_flatten_range {α : Type} (p : α → Bool) (f : ℕ → List α) (k : ℕ)
    (h : ∀ i, (f i).countP p = k) :
    ∀ n, (((List.range n).map f).flatten).countP p = n * k := by
  intro n
  induction n with
  | zero => simp
  | succ m ih =>
    rw [List.range_succ, List.map_append, List.flatten_append, List.countP_append]
    simp [ih, h, Nat.succ_mul]

lemma countInit_filterTrace (inp : Inputs T) : countInit (filterTrace inp) = 0 := by
  unfold countInit filterTrace
  split <;> split <;> rfl

lemma countEvolve_filterTrace (inp : Inputs T) : countEvolve (filterTrace inp) = 0 := by
  unfold countEvolve filterTrace
  split <;> split <;> rfl

lemma countGetBest_filterTrace (inp : Inputs T) : countGetBest (filterTrace inp) = 0 := by
  unfold countGetBest filterTrace
  split <;> split <;> rfl

lemma countViz_filterTrace (inp : Inputs T) : countViz (filterTrace inp) = 0 := by
  unfold countViz filterTrace
  split <;> split <;> rfl

lemma countAdd_filterTrace (inp : Inputs T) : countAdd (filterTrace inp) = 0 := by
  unfold countAdd filterTrace
  split <;> split <;> rfl

lemma countFilterGT_filterTrace (inp : Inputs T) : countFilterGT (filterTrace inp) = 0 := by
  unfold countFilterGT filterTrace
  split <;> split <;> rfl

lemma countInit_gtTrace (inp : Inputs T) : countInit (gtTrace inp) = 0 := by
  unfold countInit gtTrace
  split <;> [skip; rfl]
  split <;> [split <;> rfl; rfl]

lemma countEvolve_gtTrace (inp : Inputs T) : countEvolve (gtTrace inp) = 0 := by
  unfold countEvolve gtTrace
  split <;> [skip; rfl]
  split <;> [split <;> rfl; rfl]

lemma countGetBest_gtTrace (inp : Inputs T) : countGetBest (gtTrace inp) = 0 := by
  unfold countGetBest gtTrace
  split <;> [skip; rfl]
  split <;> [split <;> rfl; rfl]

lemma countViz_gtTrace (inp : Inputs T) : countViz (gtTrace inp) = 0 := by
  unfold countViz gtTrace
  split <;> [skip; rfl]
  split <;> [split <;> rfl; rfl]

lemma countAdd_gtTrace (inp : Inputs T) : countAdd (gtTrace inp) = 0 := by
  unfold countAdd gtTrace
  split <;> [skip; rfl]
  split <;> [split <;> rfl; rfl]

lemma countFilterGT_gtTrace_fail (inp : Inputs T) (h : inp.ground_truth_ok = false) :
    countFilterGT (gtTrace inp) = 0 := by
  unfold countFilterGT gtTrace
  rw [h]
  split <;> rfl

lemma countAdd_addTrace (inp : Inputs T) : countAdd (addTrace inp) = inp.num_part.toNat := by
  unfold countAdd addTrace
  rw [List.countP_map]
  simp [Function.comp_def]

lemma countInit_addTrace (inp : Inputs T) : countInit (addTrace inp) = 0 := by
  unfold countInit addTrace
  rw [List.countP_map]
  simp [Function.comp_def]

lemma countEvolve_addTrace (inp : Inputs T) : countEvolve (addTrace inp) = 0 := by
  unfold countEvolve addTrace
  rw [List.countP_map]
  simp [Function.comp_def]

lemma countGetBest_addTrace (inp : Inputs T) : countGetBest (addTrace inp) = 0 := by
  unfold countGetBest addTrace
  rw [List.countP_map]
  simp [Function.comp_def]

lemma countViz_addTrace (inp : Inputs T) : countViz (addTrace inp) = 0 := by
  unfold countViz addTrace
  rw [List.countP_map]
  simp [Function.comp_def]

lemma countFilterGT_addTrace (inp : Inputs T) : countFilterGT (addTrace inp) = 0 := by
  unfold countFilterGT addTrace
  rw [List.countP_map]
  simp [Function.comp_def]

lemma countInit_genTrace (inp : Inputs T) : countInit (genTrace inp) = 0 := by
  have := countP_flatten_range
    (fun e : Event T => match e with | Event.init => true | _ => false)
    (genBlock inp) 0 (fun _ => rfl) inp.num_gen.toNat
  simpa [genTrace, countInit] using this

lemma countEvolve_genTrace (inp : Inputs T) : countEvolve (genTrace inp) = inp.num_gen.toNat := by
  have := countP_flatten_range
    (fun e : Event T => match e with | Event.evolve => true | _ => false)
    (genBlock inp) 1 (fun _ => rfl) inp.num_gen.toNat
  simpa [genTrace, countEvolve] using this

lemma countGetBest_genTrace (inp : Inputs T) : countGetBest (genTrace inp) = inp.num_gen.toNat := by
  have := countP_flatten_range
    (fun e : Event T => match e with | Event.getBest => true | _ => false)
    (genBlock inp) 1 (fun _ => rfl) inp.num_gen.toNat
  simpa [genTrace, countGetBest] using this

lemma countViz_genTrace (inp : Inputs T) : countViz (genTrace inp) = inp.num_gen.toNat := by
  have := countP_flatten_range
    (fun e : Event T => match e with | Event.vizUpdate _ => true | _ => false)
    (genBlock inp) 1 (fun _ => rfl) inp.num_gen.toNat
  simpa [genTrace, countViz] using this

lemma countAdd_genTrace (inp : Inputs T) : countAdd (genTrace inp) = 0 := by
  have := countP_flatten_range
    (fun e : Event T => match e with | Event.addParticle _ _ _ _ => true | _ => false)
    (genBlock inp) 0 (fun _ => rfl) inp.num_gen.toNat
  simpa [genTrace, countAdd] using this

lemma countFilterGT_genTrace (inp : Inputs T) : countFilterGT (genTrace inp) = 0 := by
  have := countP_flatten_range
    (fun e : Event T => match e with | Event.filterGroundTruth => true | _ => false)
    (genBlock inp) 0 (fun _ => rfl) inp.num_gen.toNat
  simpa [genTrace, countFilterGT] using this

lemma finalBest_of_pos (inp : Inputs T) (h : 0 < inp.num_gen.toNat) :
    finalBest inp = inp.best (inp.num_gen.toNat - 1) := by
  unfold finalBest
  obtain ⟨m, hm⟩ : ∃ m, inp.num_gen.toNat = m + 1 :=
    ⟨inp.num_gen.toNat - 1, (Nat.succ_pred_eq_of_pos h).symm⟩
  rw [hm, List.range_succ, List.foldl_append]
  simp

lemma finalBest_of_zero (inp : Inputs T) (h : inp.num_gen.toNat = 0) :
    finalBest inp = inp.defaultTransform := by
  unfold finalBest
  rw [h]
  rfl

lemma countInit_append (a b : List (Event T)) :
    countInit (a ++ b) = countInit a + countInit b := List.countP_append _ a b

lemma countEvolve_append (a b : List (Event T)) :
    countEvolve (a ++ b) = countEvolve a + countEvolve b := List.countP_append _ a b

lemma countGetBest_append (a b : List (Event T)) :
    countGetBest (a ++ b) = countGetBest a + countGetBest b := List.countP_append _ a b

lemma countViz_append (a b : List (Event T)) :
    countViz (a ++ b) = countViz a + countViz b := List.countP_append _ a b

lemma countAdd_append (a b : List (Event T)) :
    countAdd (a ++ b) = countAdd a + countAdd b := List.countP_append _ a b

lemma countFilterGT_append (a b : List (Event T)) :
    countFilterGT (a ++ b) = countFilterGT a + countFilterGT b := List.countP_append _ a b

lemma driverTrace_success (inp : Inputs T) (h1 : inp.source_ok = true)
    (h2 : inp.target_ok = true) :
    driverTrace inp =
      [Event.loadSource true, Event.loadTarget true] ++ filterTrace inp ++ gtTrace inp
        ++ addTrace inp ++ [Event.init] ++ genTrace inp
        ++ [Event.saveCloud (savedCloudOf inp)] := by
  rw [driverTrace, driver_success inp h1 h2]

lemma countInit_driverTrace (inp : Inputs T) (h1 : inp.source_ok = true)
    (h2 : inp.target_ok = true) : countInit (driverTrace inp) = 1 := by
  have hA : countInit ([Event.loadSource true, Event.loadTarget true] : List (Event T)) = 0 := rfl
  have hB : countInit ([Event.init] : List (Event T)) = 1 := rfl
  have hC : countInit [Event.saveCloud (savedCloudOf inp)] = 0 := rfl
  rw [driverTrace_success inp h1 h2]
  simp only [countInit_append, countInit_filterTrace, countInit_gtTrace,
    countInit_addTrace, countInit_genTrace, hA, hB, hC]

lemma countEvolve_driverTrace (inp : Inputs T) (h1 : inp.source_ok = true)
    (h2 : inp.target_ok = true) : countEvolve (driverTrace inp) = inp.num_gen.toNat := by
  have hA : countEvolve ([Event.loadSource true, Event.loadTarget true] : List (Event T)) = 0 := rfl
  have hB : countEvolve ([Event.init] : List (Event T)) = 0 := rfl
  have hC : countEvolve [Event.saveCloud (savedCloudOf inp)] = 0 := rfl
  rw [driverTrace_success inp h1 h2]
  simp only [countEvolve_append, countEvolve_filterTrace, countEvolve_gtTrace,
    countEvolve_addTrace, countEvolve_genTrace, hA, hB, hC]
  omega

lemma countGetBest_driverTrace (inp : Inputs T) (h1 : inp.source_ok = true)
    (h2 : inp.target_ok = true) : countGetBest (driverTrace inp) = inp.num_gen.toNat := by
  have hA : countGetBest ([Event.loadSource true, Event.loadTarget true] : List (Event T)) = 0 := rfl
  have hB : countGetBest ([Event.init] : List (Event T)) = 0 := rfl
  have hC : countGetBest [Event.saveCloud (savedCloudOf inp)] = 0 := rfl
  rw [driverTrace_success inp h1 h2]
  simp only [countGetBest_append, countGetBest_filterTrace, countGetBest_gtTrace,
    countGetBest_addTrace, countGetBest_genTrace, hA, hB, hC]
  omega

lemma countViz_driverTrace (inp : Inputs T) (h1 : inp.source_ok = true)
    (h2 : inp.target_ok = true) : countViz (driverTrace inp) = inp.num_gen.toNat := by
  have hA : countViz ([Event.loadSource true, Event.loadTarget true] : List (Event T)) = 0 := rfl
  have hB : countViz ([Event.init] : List (Event T)) = 0 := rfl
  have hC : countViz [Event.saveCloud (savedCloudOf inp)] = 0 := rfl
  rw [driverTrace_success inp h1 h2]
  simp only [countViz_append, countViz_filterTrace, countViz_gtTrace,
    countViz_addTrace, countViz_genTrace, hA, hB, hC]
  omega

lemma countAdd_driverTrace (inp : Inputs T) (h1 : inp.source_ok = true)
    (h2 : inp.target_ok = true) : countAdd (driverTrace inp) = inp.num_part.toNat := by
  have hA : countAdd ([Event.loadSource true, Event.loadTarget true] : List (Event T)) = 0 := rfl
  have hB : countAdd ([Event.init] : List (Event T)) = 0 := rfl
  have hC : countAdd [Event.saveCloud (savedCloudOf inp)] = 0 := rfl
  rw [driverTrace_success inp h1 h2]
  simp only [countAdd_append, countAdd_filterTrace, countAdd_gtTrace,
    countAdd_addTrace, countAdd_genTrace, hA, hB, hC]
  omega

lemma countFilterGT_driverTrace (inp : Inputs T) (h1 : inp.source_ok = true)
    (h2 : inp.target_ok = true) (hg : inp.ground_truth_ok = false) :
    countFilterGT (driverTrace inp) = 0 := by
  have hA : countFilterGT ([Event.loadSource true, Event.loadTarget true] : List (Event T)) = 0 := rfl
  have hB : countFilterGT ([Event.init] : List (Event T)) = 0 := rfl
  have hC : countFilterGT [Event.saveCloud (savedCloudOf inp)] = 0 := rfl
  rw [driverTrace_success inp h1 h2]
  simp only [countFilterGT_append, countFilterGT_filterTrace,
    countFilterGT_gtTrace_fail inp hg, countFilterGT_addTrace, countFilterGT_genTrace,
    hA, hB, hC]

/-- Claim C2: in every driver execution whose source/target loads
succeed, `init()` runs exactly once, after every `add_particle` call
and before every `evolve()`; `evolve()` then runs exactly
`num_generations` times, and each generation is exactly the block
`evolve()`, `getBest()`, one delivery of that generation's best
transform to the visualization — so `getBest()` is read and the best
transform is delivered once per generation, with no feedback into the
optimizer (the reported best is a function of the generation index
alone). -/
theorem driver_control_flow (inp : Inputs T)
    (h1 : inp.source_ok = true) (h2 : inp.target_ok = true) (h3 : 0 ≤ inp.num_gen) :
    countInit (driverTrace inp) = 1 ∧
    countEvolve (driverTrace inp) = inp.num_gen.toNat ∧
    countGetBest (driverTrace inp) = inp.num_gen.toNat ∧
    countViz (driverTrace inp) = inp.num_gen.toNat ∧
    (inp.num_gen.toNat : ℤ) = inp.num_gen ∧
    (∃ pre post, driverTrace inp = pre ++ [Event.init] ++ genTrace inp ++ post ∧
      countAdd pre = inp.num_part.toNat ∧ countAdd (genTrace inp) = 0 ∧
      countAdd post = 0 ∧
      countInit pre = 0 ∧ countInit post = 0 ∧
      countEvolve pre = 0 ∧ countGetBest pre = 0 ∧ countViz pre = 0 ∧
      countEvolve post = 0 ∧ countGetBest post = 0 ∧ countViz post = 0) ∧
    genTrace inp = ((List.range inp.num_gen.toNat).map (genBlock inp)).flatten ∧
    (∀ i, genBlock inp i = [Event.evolve, Event.getBest, Event.vizUpdate (inp.best i)]) := by
  have hA1 : countInit ([Event.loadSource true, Event.loadTarget true] : List (Event T)) = 0 := rfl
  have hA2 : countEvolve ([Event.loadSource true, Event.loadTarget true] : List (Event T)) = 0 := rfl
  have hA3 : countGetBest ([Event.loadSource true, Event.loadTarget true] : List (Event T)) = 0 := rfl
  have hA4 : countViz ([Event.loadSource true, Event.loadTarget true] : List (Event T)) = 0 := rfl
  have hA5 : countAdd ([Event.loadSource true, Event.loadTarget true] : List (Event T)) = 0 := rfl
  have hC1 : countInit [Event.saveCloud (savedCloudOf inp)] = 0 := rfl
  have hC2 : countEvolve [Event.saveCloud (savedCloudOf inp)] = 0 := rfl
  have hC3 : countGetBest [Event.saveCloud (savedCloudOf inp)] = 0 := rfl
  have hC4 : countViz [Event.saveCloud (savedCloudOf inp)] = 0 := rfl
  have hC5 : countAdd [Event.saveCloud (savedCloudOf inp)] = 0 := rfl
  refine ⟨countInit_driverTrace inp h1 h2, countEvolve_driverTrace inp h1 h2,
    countGetBest_driverTrace inp h1 h2, countViz_driverTrace inp h1 h2,
    Int.toNat_of_nonneg h3, ?_, rfl, fun i => rfl⟩
  refine ⟨[Event.loadSource true, Event.loadTarget true] ++ filterTrace inp
    ++ gtTrace inp ++ addTrace inp, [Event.saveCloud (savedCloudOf inp)],
    ?_, ?_, countAdd_genTrace inp, hC5, ?_, hC1, ?_, ?_, ?_, hC2, hC3, hC4⟩
  · rw [driverTrace_success inp h1 h2]
  · simp only [countAdd_append, countAdd_filterTrace, countAdd_gtTrace,
      countAdd_addTrace, hA5]
    omega
  · simp only [countInit_append, countInit_filterTrace, countInit_gtTrace,
      countInit_addTrace, hA1]
  · simp only [countEvolve_append, countEvolve_filterTrace, countEvolve_gtTrace,
      countEvolve_addTrace, hA2]
  · simp only [countGetBest_append, countGetBest_filterTrace, countGetBest_gtTrace,
      countGetBest_addTrace, hA3]
  · simp only [countViz_append, countViz_filterTrace, countViz_gtTrace,
      countViz_addTrace, hA4]

/-- Instantiation of the control-flow theorem on a concrete run
(3 particles, 2 generations, both loads succeeding). -/
theorem driver_control_flow_witness :
    countInit (driverTrace inputC2) = 1 ∧
    countEvolve (driverTrace inputC2) = 2 ∧
    countGetBest (driverTrace inputC2) = 2 ∧
    countViz (driverTrace inputC2) = 2 := by
  have h := driver_control_flow inputC2 rfl rfl (by decide)
  exact ⟨h.1, h.2.1, h.2.2.1, h.2.2.2.1⟩

/-- Claim C3 counterexample: a completed run with `num_it = 0` (zero
generations).  The driver saves the source cloud transformed by the
default-constructed particle's transform (here 0) even though
`getBest()` is never called — so the saved cloud is not the source
transformed by a transform returned by `getBest()` (this run's swarm
reports transform 1 at every generation). -/
theorem saved_cloud_cex :
    (driver inputC3cex).outcome = Outcome.completed (Cloud.transformed Cloud.src 0) ∧
    countGetBest (driverTrace inputC3cex) = 0 ∧
    inputC3cex.defaultTransform = 0 ∧ inputC3cex.best 0 = 1 := by decide

/-- Claim C3 (amended): in every driver execution that runs to
completion with at least one generation, the cloud written to
`output.pcd` is the loaded (and optionally voxel-filtered) source
cloud transformed by the best transform returned by the last
`getBest()` call. -/
theorem saved_cloud_is_last_best (inp : Inputs T)
    (h1 : inp.source_ok = true) (h2 : inp.target_ok = true) (h3 : 1 ≤ inp.num_gen) :
    (driver inp).outcome =
      Outcome.completed
        (Cloud.transformed (procSource inp) (inp.best (inp.num_gen.toNat - 1))) ∧
    Event.saveCloud
        (Cloud.transformed (procSource inp) (inp.best (inp.num_gen.toNat - 1)))
      ∈ driverTrace inp := by
  have hpos : 0 < inp.num_gen.toNat := by omega
  have hsaved : savedCloudOf inp =
      Cloud.transformed (procSource inp) (inp.best (inp.num_gen.toNat - 1)) := by
    rw [savedCloudOf, finalBest_of_pos inp hpos]
  constructor
  · rw [driver_success inp h1 h2, hsaved]
  · rw [driverTrace_success inp h1 h2, hsaved]
    simp

/-- Instantiation of the amended C3 theorem on a concrete run with two
generations whose swarm reports transform 4 after the last one. -/
theorem saved_cloud_is_last_best_witness :
    (driver inputC3w).outcome = Outcome.completed (Cloud.transformed Cloud.src 4) := by
  have h := (saved_cloud_is_last_best inputC3w rfl rfl (by decide)).1
  rw [h]
  decide

/-- Claim C4 counterexample: a run in which the optional ground-truth
cloud fails to load while source and target load fine.  The load
failure does not abort the run: particles are still constructed and a
generation still runs. -/
theorem load_failure_cex :
    Event.loadGroundTruth false ∈ driverTrace inputC4cex ∧
    countAdd (driverTrace inputC4cex) = 2 ∧
    countEvolve (driverTrace inputC4cex) = 1 ∧
    (driver inputC4cex).outcome ≠ Outcome.failed := by decide

/-- Claim C4 (amended): if loading the source or the target cloud
fails, the driver aborts with `EXIT_FAILURE` before any particle is
constructed and before any swarm call (no `add_particle`, no
`init()`, no `evolve()`); a failed load of the optional ground-truth
cloud does not abort the run. -/
theorem load_failure_aborts (inp : Inputs T)
    (h : inp.source_ok = false ∨ inp.target_ok = false) :
    (driver inp).outcome = Outcome.failed ∧
    countAdd (driverTrace inp) = 0 ∧ countInit (driverTrace inp) = 0 ∧
    countEvolve (driverTrace inp) = 0 ∧ Event.exitFailure ∈ driverTrace inp := by
  have hd : driver inp = ⟨[Event.loadSource false, Event.exitFailure], Outcome.failed⟩ ∨
      driver inp =
        ⟨[Event.loadSource true, Event.loadTarget false, Event.exitFailure],
         Outcome.failed⟩ := by
    rcases h with h | h
    · exact Or.inl (by simp [driver, h])
    · cases hs : inp.source_ok
      · exact Or.inl (by simp [driver, hs])
      · exact Or.inr (by simp [driver, hs, h])
  rcases hd with hd | hd <;>
    rw [driverTrace, hd] <;>
    exact ⟨rfl, rfl, rfl, rfl, by simp⟩

/-- Instantiation of the amended C4 theorem on a run whose source
cloud fails to load. -/
theorem load_failure_aborts_witness :
    (driver inputC4w).outcome = Outcome.failed ∧
    countAdd (driverTrace inputC4w) = 0 := by
  have h := load_failure_aborts inputC4w (Or.inl rfl)
  exact ⟨h.1, h.2.1⟩

/-- Claim C6: a cloud whose configured voxel-filter leaf size is 0 is
passed to the particles unchanged, and a cloud is filtered exactly
when its leaf size is nonzero; every particle is constructed with the
so-processed source and target clouds. -/
theorem voxel_filter_identity_when_zero (inp : Inputs T)
    (h1 : inp.source_ok = true) (h2 : inp.target_ok = true) :
    (inp.source_filter_size = 0 → procSource inp = Cloud.src) ∧
    (inp.source_filter_size ≠ 0 →
      procSource inp = Cloud.filtered Cloud.src inp.source_filter_size) ∧
    (inp.target_filter_size = 0 → procTarget inp = Cloud.tgt) ∧
    (inp.target_filter_size ≠ 0 →
      procTarget inp = Cloud.filtered Cloud.tgt inp.target_filter_size) ∧
    (∀ i < inp.num_part.toNat,
      Event.addParticle i (procSource inp) (procTarget inp) inp.params
        ∈ driverTrace inp) := by
  refine ⟨fun h => by simp [procSource, h], fun h => by simp [procSource, h],
    fun h => by simp [procTarget, h], fun h => by simp [procTarget, h], ?_⟩
  intro i hi
  rw [driverTrace_success inp h1 h2]
  have hmem : Event.addParticle i (procSource inp) (procTarget inp) inp.params
      ∈ addTrace inp := by
    unfold addTrace
    exact List.mem_map.mpr ⟨i, List.mem_range.mpr hi, rfl⟩
  simp [List.mem_append, hmem]

/-- Instantiation of the C6 theorem on a run with leaf size 0 for the
source and 2 for the target. -/
theorem voxel_filter_identity_witness :
    procSource inputC6w = Cloud.src ∧
    procTarget inputC6w = Cloud.filtered Cloud.tgt 2 ∧
    Event.addParticle 0 (procSource inputC6w) (procTarget inputC6w) inputC6w.params
      ∈ driverTrace inputC6w := by
  have h := voxel_filter_identity_when_zero inputC6w rfl rfl
  exact ⟨h.1 rfl, h.2.2.2.1 (by decide), h.2.2.2.2 0 (by decide)⟩

/-- Claim C7 counterexample: a run with zero particles and
`dof = -1 ≤ 0`.  The driver performs no configuration validation: it
proceeds to build the (empty) swarm, calls `init()` and `evolve()`,
and completes instead of failing. -/
theorem config_validation_cex :
    inputC7cex.num_part = 0 ∧ inputC7cex.params.dof ≤ 0 ∧
    (driver inputC7cex).outcome ≠ Outcome.failed ∧
    countInit (driverTrace inputC7cex) = 1 ∧
    countEvolve (driverTrace inputC7cex) = 1 := by decide

/-- Claim C7 (amended): the driver performs no configuration
validation: a run configured with `dof ≤ 0` or zero particles (both
loads succeeding) still builds the swarm and runs the optimization —
`init()` runs once, `evolve()` runs `num_generations` times and the
run completes. -/
theorem no_configuration_validation (inp : Inputs T)
    (h1 : inp.source_ok = true) (h2 : inp.target_ok = true)
    (_h3 : inp.num_part ≤ 0 ∨ inp.params.dof ≤ 0) :
    (driver inp).outcome = Outcome.completed (savedCloudOf inp) ∧
    countInit (driverTrace inp) = 1 ∧
    countEvolve (driverTrace inp) = inp.num_gen.toNat := by
  refine ⟨?_, countInit_driverTrace inp h1 h2, countEvolve_driverTrace inp h1 h2⟩
  rw [driver_success inp h1 h2]

/-- Instantiation of the amended C7 theorem on the zero-particle,
negative-`dof` run. -/
theorem no_configuration_validation_witness :
    countInit (driverTrace inputC7cex) = 1 ∧
    countEvolve (driverTrace inputC7cex) = 1 := by
  have h := no_configuration_validation inputC7cex rfl rfl (Or.inl (by decide))
  exact ⟨h.2.1, h.2.2⟩

/-- Claim C9: when the optional ground-truth cloud fails to load, the
run is not aborted: the driver records the failed load, skips the
ground-truth filtering (the feature is disabled), still constructs
all `num_part` particles, runs `init()` once and all `num_generations`
generations, and completes. -/
theorem ground_truth_failure_continues (inp : Inputs T)
    (h1 : inp.source_ok = true) (h2 : inp.target_ok = true)
    (h3 : inp.ground_truth_given = true) (h4 : inp.ground_truth_ok = false) :
    (driver inp).outcome = Outcome.completed (savedCloudOf inp) ∧
    Event.loadGroundTruth false ∈ driverTrace inp ∧
    countAdd (driverTrace inp) = inp.num_part.toNat ∧
    countInit (driverTrace inp) = 1 ∧
    countEvolve (driverTrace inp) = inp.num_gen.toNat ∧
    countFilterGT (driverTrace inp) = 0 := by
  refine ⟨?_, ?_, countAdd_driverTrace inp h1 h2, countInit_driverTrace inp h1 h2,
    countEvolve_driverTrace inp h1 h2, countFilterGT_driverTrace inp h1 h2 h4⟩
  · rw [driver_success inp h1 h2]
  · rw [driverTrace_success inp h1 h2]
    have : Event.loadGroundTruth false ∈ gtTrace inp := by
      simp [gtTrace, h3, h4]
    simp [List.mem_append, this]

/-- Instantiation of the C9 theorem on a run whose ground-truth load
fails (2 particles, 2 generations, nonzero source filter size). -/
theorem ground_truth_failure_continues_witness :
    Event.loadGroundTruth false ∈ driverTrace inputC9w ∧
    countAdd (driverTrace inputC9w) = 2 ∧
    countEvolve (driverTrace inputC9w) = 2 ∧
    countFilterGT (driverTrace inputC9w) = 0 := by
  have h := ground_truth_failure_continues inputC9w rfl rfl rfl rfl
  exact ⟨h.2.1, h.2.2.1, h.2.2.2.2.1, h.2.2.2.2.2⟩

/-- Claim C10: in a completed run configured with 0 generations the
driver never calls `evolve()` or `getBest()`, and the saved cloud is
the processed source transformed by the transform of a
default-constructed particle — not by the swarm's post-`init()`
global-best transform (whenever the two differ). -/
theorem zero_generations_uses_default_transform (inp : Inputs T)
    (h1 : inp.source_ok = true) (h2 : inp.target_ok = true) (h3 : inp.num_gen = 0) :
    countEvolve (driverTrace inp) = 0 ∧
    countGetBest (driverTrace inp) = 0 ∧
    (driver inp).outcome =
      Outcome.completed (Cloud.transformed (procSource inp) inp.defaultTransform) ∧
    (inp.defaultTransform ≠ inp.initBest →
      (driver inp).outcome ≠
        Outcome.completed (Cloud.transformed (procSource inp) inp.initBest)) := by
  have hz : inp.num_gen.toNat = 0 := by omega
  have hout : (driver inp).outcome =
      Outcome.completed (Cloud.transformed (procSource inp) inp.defaultTransform) := by
    rw [driver_success inp h1 h2]
    simp [savedCloudOf, finalBest_of_zero inp hz]
  refine ⟨?_, ?_, hout, ?_⟩
  · rw [countEvolve_driverTrace inp h1 h2, hz]
  · rw [countGetBest_driverTrace inp h1 h2, hz]
  · intro hne hcon
    rw [hout] at hcon
    exact hne (by injection hcon with h; injection h)

/-- Instantiation of the C10 theorem on a zero-generation run whose
default particle transform (0) differs from the swarm's post-`init()`
best (1). -/
theorem zero_generations_witness :
    countGetBest (driverTrace inputC10w) = 0 ∧
    (driver inputC10w).outcome =
      Outcome.completed (Cloud.transformed Cloud.src 0) ∧
    (driver inputC10w).outcome ≠
      Outcome.completed (Cloud.transformed (procSource inputC10w) inputC10w.initBest) := by
  have h := zero_generations_uses_default_transform inputC10w rfl rfl rfl
  refine ⟨h.2.1, ?_, h.2.2.2 (by decide)⟩
  rw [h.2.2.1]
  decide

lemma pbestUpdate_le (p c : ℚ) : pbestUpdate p c ≤ p := by
  unfold pbestUpdate
  split
  · exact le_of_lt (by assumption)
  · exact le_refl p

lemma zipWith_pbestUpdate_le (pb : List ℚ) :
    ∀ cs : List ℚ, pb.length = cs.length →
      List.Forall₂ (· ≤ ·) (List.zipWith pbestUpdate pb cs) pb := by
  induction pb with
  | nil => intro cs _h; simp
  | cons p pb ih =>
    intro cs h
    cases cs with
    | nil => simp at h
    | cons c cs =>
      simp only [List.zipWith_cons_cons]
      exact List.Forall₂.cons (pbestUpdate_le p c) (ih cs (by simpa using h))

lemma foldl_min_le {xs ys : List ℚ} (hf : List.Forall₂ (· ≤ ·) xs ys) :
    ∀ a b : ℚ, a ≤ b → xs.foldl min a ≤ ys.foldl min b := by
  induction hf with
  | nil => intro a b hab; exact hab
  | cons hxy _ ih =>
    intro a b hab
    simp only [List.foldl_cons]
    exact ih _ _ (inf_le_inf hab hxy)

lemma minCost_zipWith_le (pb cs : List ℚ) (h : pb.length = cs.length) :
    minCost (List.zipWith pbestUpdate pb cs) ≤ minCost pb := by
  cases pb with
  | nil => simp [minCost]
  | cons p pb =>
    cases cs with
    | nil => simp at h
    | cons c cs =>
      simp only [List.zipWith_cons_cons, minCost]
      exact foldl_min_le (zipWith_pbestUpdate_le pb cs (by simpa using h)) _ _
        (pbestUpdate_le p c)

lemma evolveStep_gbest_le (s : SwarmState) (cs : List ℚ)
    (hg : s.gbest = minCost s.pbests) (h : cs.length = s.pbests.length) :
    (evolveStep s cs).gbest ≤ s.gbest := by
  rw [hg]
  exact minCost_zipWith_le s.pbests cs h.symm

lemma runFrom_gbest_eq (gens : List (List ℚ)) :
    ∀ s : SwarmState, s.gbest = minCost s.pbests →
      (runFrom s gens).gbest = minCost (runFrom s gens).pbests := by
  induction gens with
  | nil => intro s h; exact h
  | cons c gens ih =>
    intro s _h
    simp only [runFrom, List.foldl_cons]
    exact ih (evolveStep s c) rfl

lemma runFrom_pbests_length (gens : List (List ℚ)) :
    ∀ (s : SwarmState) (n : ℕ), s.pbests.length = n →
      (∀ cs ∈ gens, cs.length = n) → (runFrom s gens).pbests.length = n := by
  induction gens with
  | nil => intro s n h _; exact h
  | cons c gens ih =>
    intro s n h hall
    have hc : c.length = n := hall c (List.mem_cons_self c gens)
    simp only [runFrom, List.foldl_cons]
    refine ih (evolveStep s c) n ?_ (fun cs hcs => hall cs (List.mem_cons_of_mem c hcs))
    simp [evolveStep, h, hc]

lemma runFrom_take_succ (s : SwarmState) (gens : List (List ℚ)) (g : ℕ) :
    runFrom s (gens.take (g+1)) =
      (gens[g]?.toList).foldl evolveStep (runFrom s (gens.take g)) := by
  rw [runFrom, List.take_succ, List.foldl_append]
  rfl

/-- Claim C1: for every run of the swarm (modelled from the spec),
the global-best cost after generation g+1 is at most the global-best
cost after generation g, and after `init()` (g = 0) and after every
`evolve()` the global-best cost equals the minimum personal-best cost
across the particle population. -/
theorem swarm_gbest_invariant (initCosts : List ℚ) (gens : List (List ℚ))
    (hlen : ∀ cs ∈ gens, cs.length = initCosts.length) :
    (∀ g : ℕ, (runSwarm initCosts (gens.take (g+1))).gbest ≤
      (runSwarm initCosts (gens.take g)).gbest) ∧
    (∀ g : ℕ, (runSwarm initCosts (gens.take g)).gbest =
      minCost ((runSwarm initCosts (gens.take g)).pbests)) := by
  have hinit : (swarmInit initCosts).gbest = minCost (swarmInit initCosts).pbests := rfl
  have htake : ∀ g : ℕ, ∀ cs ∈ gens.take g, cs.length = initCosts.length :=
    fun _g cs hcs => hlen cs (List.mem_of_mem_take hcs)
  have heq : ∀ g : ℕ, (runSwarm initCosts (gens.take g)).gbest =
      minCost ((runSwarm initCosts (gens.take g)).pbests) :=
    fun g => runFrom_gbest_eq (gens.take g) _ hinit
  refine ⟨?_, heq⟩
  intro g
  have hstep := runFrom_take_succ (swarmInit initCosts) gens g
  rw [runSwarm, runSwarm, hstep]
  cases hg : gens[g]? with
  | none => simp
  | some c =>
    simp only [Option.toList, List.foldl_cons, List.foldl_nil]
    have hlenstate :
        (runFrom (swarmInit initCosts) (gens.take g)).pbests.length =
          initCosts.length :=
      runFrom_pbests_length (gens.take g) _ _ rfl (htake g)
    have hc : c.length = initCosts.length := hlen c (List.getElem?_mem hg)
    exact evolveStep_gbest_le _ c (heq g) (hc.trans hlenstate.symm)

/-- Instantiation of the C1 theorem on a concrete two-particle,
two-generation run. -/
theorem swarm_gbest_invariant_witness :
    (runSwarm [3, 5] ([[2, 9], [1, 1]].take 1)).gbest ≤
      (runSwarm [3, 5] ([[2, 9], [1, 1]].take 0)).gbest ∧
    (runSwarm [3, 5] ([[2, 9], [1, 1]].take 0)).gbest =
      minCost ((runSwarm [3, 5] ([[2, 9], [1, 1]].take 0)).pbests) := by
  have h := swarm_gbest_invariant [3, 5] [[2, 9], [1, 1]] (by decide)
  exact ⟨h.1 0, h.2 0⟩

lemma pbestAfter_succ (p0 : ℚ) (cs : List ℚ) (g : ℕ) :
    pbestAfter p0 cs (g+1) =
      (cs[g]?.toList).foldl pbestUpdate (pbestAfter p0 cs g) := by
  rw [pbestAfter, List.take_succ, List.foldl_append]
  rfl

/-- Claim C5: a particle's personal-best cost (modelled from the
spec) never increases across generations, and it changes only when
the newly evaluated cost improves on it, in which case it becomes
that new cost. -/
theorem particle_pbest_invariant (p0 : ℚ) (cs : List ℚ) :
    (∀ g : ℕ, pbestAfter p0 cs (g+1) ≤ pbestAfter p0 cs g) ∧
    (∀ (g : ℕ) (hg : g < cs.length),
      pbestAfter p0 cs (g+1) ≠ pbestAfter p0 cs g →
        pbestAfter p0 cs (g+1) = cs[g] ∧ cs[g] < pbestAfter p0 cs g) := by
  constructor
  · intro g
    rw [pbestAfter_succ]
    cases hg : cs[g]? with
    | none => simp
    | some c =>
      simp only [Option.toList, List.foldl_cons, List.foldl_nil]
      exact pbestUpdate_le _ c
  · intro g hg hne
    have hstep : pbestAfter p0 cs (g+1) = pbestUpdate (pbestAfter p0 cs g) cs[g] := by
      rw [pbestAfter_succ, List.getElem?_eq_getElem hg]
      rfl
    by_cases hlt : cs[g] < pbestAfter p0 cs g
    · exact ⟨by rw [hstep]; simp [pbestUpdate, hlt], hlt⟩
    · exact absurd (by rw [hstep]; simp [pbestUpdate, hlt]) hne

/-- Instantiation of the C5 theorem on a particle with initial cost 5
and evaluated costs 7 then 2. -/
theorem particle_pbest_invariant_witness :
    pbestAfter 5 [7, 2] 1 ≤ pbestAfter 5 [7, 2] 0 ∧
    pbestAfter 5 [7, 2] 2 = 2 ∧ (2 : ℚ) < pbestAfter 5 [7, 2] 1 := by
  have h := particle_pbest_invariant 5 [7, 2]
  have h2 := h.2 1 (by decide) (by decide)
  refine ⟨h.1 0, ?_, ?_⟩
  · rw [h2.1]
    decide
  · have := h2.2
    rw [show (([7, 2] : List ℚ)[1] : ℚ) = 2 from by decide] at this
    exact this

lemma weight_sub_one (d nsq : ℚ) (hn : 0 ≤ nsq) (hd : 1 ≤ d) :
    robust_weight d nsq - 1 = (1 - nsq) / (d + nsq) := by
  have hpos : 0 < d + nsq := by linarith
  have hne : d + nsq ≠ 0 := ne_of_gt hpos
  rw [robust_weight]
  field_simp

lemma abs_weight_sub_one_le (d nsq : ℚ) (hn : 0 ≤ nsq) (hd : 1 ≤ d) :
    |robust_weight d nsq - 1| ≤ |1 - nsq| / d := by
  rw [weight_sub_one d nsq hn hd, abs_div, abs_of_pos (by linarith : (0:ℚ) < d + nsq)]
  exact div_le_div_of_nonneg_left (abs_nonneg _) (by linarith) (by linarith)

lemma weight_tendsto_one (nsq : ℚ) (hn : 0 ≤ nsq) :
    TendstoInfty (fun d => robust_weight d nsq) 1 := by
  intro ε hε
  refine ⟨max 1 (|1 - nsq| / ε + 1), fun d hd => ?_⟩
  have hd1 : 1 ≤ d := le_trans (le_max_left _ _) hd
  have hd2 : |1 - nsq| / ε + 1 ≤ d := le_trans (le_max_right _ _) hd
  have hdpos : (0:ℚ) < d := lt_of_lt_of_le one_pos hd1
  have hb := abs_weight_sub_one_le d nsq hn hd1
  have hqe : |1 - nsq| / ε * ε = |1 - nsq| := div_mul_cancel₀ _ (ne_of_gt hε)
  have hmul : (|1 - nsq| / ε + 1) * ε ≤ d * ε :=
    mul_le_mul_of_nonneg_right hd2 (le_of_lt hε)
  have hkey0 : |1 - nsq| + ε ≤ d * ε := by
    calc |1 - nsq| + ε = (|1 - nsq| / ε + 1) * ε := by rw [add_mul, one_mul, hqe]
    _ ≤ d * ε := hmul
  have hkey : |1 - nsq| / d < ε := by
    rw [div_lt_iff₀ hdpos, mul_comm]
    linarith
  exact lt_of_le_of_lt hb hkey

lemma tendsto_mul_const {f : ℚ → ℚ} {L : ℚ} (hf : TendstoInfty f L) (c : ℚ) :
    TendstoInfty (fun d => f d * c) (L * c) := by
  intro ε hε
  obtain ⟨D, hD⟩ := hf (ε / (|c| + 1)) (by positivity)
  refine ⟨D, fun d hd => ?_⟩
  have h1 := hD d hd
  have h2 : |f d * c - L * c| = |f d - L| * |c| := by rw [← sub_mul, abs_mul]
  have h3 : |f d - L| * |c| ≤ |f d - L| * (|c| + 1) :=
    mul_le_mul_of_nonneg_left (by linarith [abs_nonneg c]) (abs_nonneg _)
  have h4 : |f d - L| * (|c| + 1) < ε / (|c| + 1) * (|c| + 1) :=
    mul_lt_mul_of_pos_right h1 (by positivity)
  have h5 : ε / (|c| + 1) * (|c| + 1) = ε :=
    div_mul_cancel₀ _ (by positivity)
  rw [h2]
  linarith

lemma tendstoInfty_add {f g : ℚ → ℚ} {L M : ℚ} (hf : TendstoInfty f L)
    (hg : TendstoInfty g M) : TendstoInfty (fun d => f d + g d) (L + M) := by
  intro ε hε
  obtain ⟨D1, h1⟩ := hf (ε/2) (by positivity)
  obtain ⟨D2, h2⟩ := hg (ε/2) (by positivity)
  refine ⟨max D1 D2, fun d hd => ?_⟩
  have e1 := h1 d (le_trans (le_max_left _ _) hd)
  have e2 := h2 d (le_trans (le_max_right _ _) hd)
  have htri : |f d + g d - (L + M)| ≤ |f d - L| + |g d - M| := by
    have habs := abs_add (f d - L) (g d - M)
    have heq : f d - L + (g d - M) = f d + g d - (L + M) := by ring
    rwa [heq] at habs
  linarith

lemma tendstoInfty_const (a : ℚ) : TendstoInfty (fun _ => a) a := by
  intro ε hε
  exact ⟨0, fun d _ => by simpa using hε⟩

lemma robust_cost_sum_tendsto : ∀ cs : List Correspondence,
    (∀ c ∈ cs, 0 ≤ c.sq ∧ 0 ≤ c.nsq) →
    TendstoInfty (fun d => robustCost d cs) (lsCost cs) := by
  intro cs
  induction cs with
  | nil => intro _h; simpa [robustCost, lsCost] using tendstoInfty_const 0
  | cons c cs ih =>
    intro h
    have hc := h c (List.mem_cons_self c cs)
    have hterm : TendstoInfty (fun d => robust_weight d c.nsq * c.sq) (1 * c.sq) :=
      tendsto_mul_const (weight_tendsto_one c.nsq hc.2) c.sq
    have hrest := ih (fun x hx => h x (List.mem_cons_of_mem c hx))
    have hsum := tendstoInfty_add hterm hrest
    have hfun : (fun d => robust_weight d c.nsq * c.sq + robustCost d cs) =
        fun d => robustCost d (c :: cs) := by
      funext d
      simp [robustCost]
    have hls : 1 * c.sq + lsCost cs = lsCost (c :: cs) := by
      simp [lsCost]
    rw [hfun, hls] at hsum
    exact hsum

/-- Claim C8: for every fixed set of correspondences with
(nonnegative) squared residuals, as `dof` tends to infinity the robust
weight `(dof + 1) / (dof + normalized_squared_residual)` converges to
1 for every correspondence, and the robust cost converges to the
unweighted sum of squared residuals. -/
theorem robust_cost_tendsto (cs : List Correspondence)
    (h : ∀ c ∈ cs, 0 ≤ c.sq ∧ 0 ≤ c.nsq) :
    (∀ c ∈ cs, TendstoInfty (fun d => robust_weight d c.nsq) 1) ∧
    TendstoInfty (fun d => robustCost d cs) (lsCost cs) :=
  ⟨fun c hc => weight_tendsto_one c.nsq (h c hc).2, robust_cost_sum_tendsto cs h⟩

/-- Instantiation of the C8 theorem on two concrete correspondences
(squared residuals 4 and 9, normalized squared residuals 2 and 3). -/
theorem robust_cost_tendsto_witness :
    TendstoInfty (fun d => robustCost d [⟨4, 2⟩, ⟨9, 3⟩]) (lsCost [⟨4, 2⟩, ⟨9, 3⟩]) ∧
    lsCost [⟨4, 2⟩, ⟨9, 3⟩] = 13 :=
  ⟨(robust_cost_tendsto [⟨4, 2⟩, ⟨9, 3⟩] (by decide)).2, by norm_num [lsCost]⟩
